import Mathlib

/-!
Verification of the WebRTC / voice-AI audio bridge (examples/webrtc/main.go).

The development shallowly embeds the bridge's pure data path:
the G.711 transcoding pipeline, the outbound RTP packetizer with its
sequence/timestamp counters, the control-channel JSON dispatch, the
single-slot session registry, and the peer-connection state handler.
Machine integers are modelled as `Nat`/`Int` with explicit `% 2^w`
where the Go code uses fixed-width types.  External collaborators
(the zaf/g711 codec library and encoding/json) are modelled from their
documented, standard behaviour, as noted on each definition.
-/

/-! ## G.711 codec

Modelled from the spec: the *waveform codec* ("stateless per-sample
companding transform, e.g. mu-law/A-law") is provided by the external
zaf/g711 library, which is not part of this repository.  The functions
below implement the standard ITU-T G.711 companding algorithm
(Sun reference implementation: bias 0x84, clip 8159 on the 14-bit
magnitude, 8 logarithmic segments), written with sign-magnitude
arithmetic: the arithmetic shift `pcm >> 2` of the reference code is
`pcm.toNat / 4` for non-negative inputs and `((-pcm).toNat + 3) / 4`
(negated) for negative ones. -/

/-- Segment number of a biased mu-law magnitude (the `seg_uend` table
search of the reference implementation). -/
def ulawSegN (p : Nat) : Nat :=
  if p ≤ 0x3F then 0 else if p ≤ 0x7F then 1 else if p ≤ 0xFF then 2
  else if p ≤ 0x1FF then 3 else if p ≤ 0x3FF then 4 else if p ≤ 0x7FF then 5
  else if p ≤ 0xFFF then 6 else if p ≤ 0x1FFF then 7 else 8

/-- Companded 7-bit body (segment and mantissa) for a mu-law magnitude
`k = |pcm >> 2|`, after clipping and biasing. -/
def ulawBody (k : Nat) : Nat :=
  if 8 ≤ ulawSegN (min k 8159 + 33) then 0x7F
  else ((ulawSegN (min k 8159 + 33) <<< 4) |||
        (((min k 8159 + 33) >>> (ulawSegN (min k 8159 + 33) + 1)) &&& 0xF))

/-- Modelled from the spec: `g711.EncodeUlawFrame` of the external
zaf/g711 library — encode one 16-bit LPCM sample to one G.711 mu-law
byte (the final complement is the xor with the sign-dependent mask). -/
def encodeUlawFrame (pcm : Int) : Nat :=
  if pcm < 0 then ulawBody (((-pcm).toNat + 3) / 4) ^^^ 0x7F
  else ulawBody (pcm.toNat / 4) ^^^ 0xFF

/-- Biased linear magnitude reconstructed from a complemented mu-law
value (the `t` of the reference `ulaw2linear`). -/
def ulawT (u : Nat) : Nat :=
  (((u &&& 0x0F) <<< 3) + 0x84) <<< ((u &&& 0x70) >>> 4)

/-- Modelled from the spec: `g711.DecodeUlawFrame` of the external
zaf/g711 library — decode one G.711 mu-law byte to a 16-bit LPCM
sample. -/
def decodeUlawFrame (code : Nat) : Int :=
  let u := (code % 256) ^^^ 0xFF
  if u &&& 0x80 ≠ 0 then (0x84 : Int) - ulawT u else (ulawT u : Int) - 0x84

/-- Linear magnitude reconstructed from a complemented (xor 0x55) A-law
value (the `t` of the reference `alaw2linear`). -/
def alawT (a : Nat) : Nat :=
  if (a &&& 0x70) >>> 4 = 0 then ((a &&& 0x0F) <<< 4) + 8
  else if (a &&& 0x70) >>> 4 = 1 then ((a &&& 0x0F) <<< 4) + 0x108
  else (((a &&& 0x0F) <<< 4) + 0x108) <<< ((a &&& 0x70) >>> 4 - 1)

/-- Modelled from the spec: `g711.DecodeAlawFrame` of the external
zaf/g711 library — decode one G.711 A-law byte to a 16-bit LPCM
sample (set sign bit of the complemented value means positive). -/
def decodeAlawFrame (code : Nat) : Int :=
  let a := (code % 256) ^^^ 0x55
  if a &&& 0x80 ≠ 0 then (alawT a : Int) else -(alawT a : Int)

/-- Decoded mu-law magnitude for an encoded magnitude class `k`:
what `decodeUlawFrame` reconstructs (in absolute value) for any sample
whose magnitude `|pcm >> 2|` is `k`. -/
def ulawDecMag (k : Nat) : Nat := ulawT (ulawBody k) - 0x84

/-- Round-trip quantization check for one magnitude class `k`:
every original sample magnitude `v` mapped to class `k` satisfies
`4*k - 3 ≤ v ≤ 4*k + 3` (clipped to `[0, 32768]`), and the check asserts
the reconstructed magnitude is within 644 of the whole interval. -/
def ulawKOk (k : Nat) : Bool :=
  (ulawDecMag k ≤ (if k = 0 then 0 else 4 * k - 3) + 644) &&
  ((if k = 8192 then 4 * k else 4 * k + 3) ≤ ulawDecMag k + 644)

/-- Balanced exhaustive checker: `chkUlaw fuel lo size` evaluates
`ulawKOk` on every point of `[lo, lo + size)`, splitting the interval
so that the recursion depth stays logarithmic. -/
def chkUlaw (fuel : Nat) : Nat → Nat → Bool :=
  Nat.rec (motive := fun _ => Nat → Nat → Bool)
    (fun lo size => size == 0 || (size == 1 && ulawKOk lo))
    (fun _ ih lo size =>
      if size == 0 then true
      else if size == 1 then ulawKOk lo
      else ih lo (size / 2) && ih (lo + size / 2) (size - size / 2))
    fuel

/-! ## PCM byte helpers (binary.LittleEndian and Go integer casts) -/

/-- Go's `int16(binary.LittleEndian.Uint16(b))`: two bytes, little
endian, reinterpreted as a signed 16-bit sample. -/
def leInt16 (lo hi : Nat) : Int :=
  if lo % 256 + 256 * (hi % 256) < 32768 then ((lo % 256 + 256 * (hi % 256) : Nat) : Int)
  else ((lo % 256 + 256 * (hi % 256) : Nat) : Int) - 65536

/-- Go's `uint16(pcmSample)`: two's-complement truncation of a signed
sample to 16 bits. -/
def uint16OfInt (x : Int) : Nat := (x % 65536).toNat

/-- Go's `binary.LittleEndian.PutUint16` applied to `uint16(x)`. -/
def putUint16LE (x : Int) : List Nat :=
  [uint16OfInt x % 256, uint16OfInt x / 256]

/-- The sample-extraction loop of `processUltravoxAudio`
(`for i := 0; i < len(pcmData)/2; i++`): consecutive little-endian
16-bit samples; a trailing odd byte is never read. -/
def pcmSamples : List Nat → List Int
  | lo :: hi :: rest => leInt16 lo hi :: pcmSamples rest
  | _ => []

/-- The PCM-serialisation loop of `processAudioPacket`
(`binary.LittleEndian.PutUint16(pcmData[i*2:], uint16(sample))`). -/
def pcmBytes : List Int → List Nat
  | [] => []
  | s :: rest => putUint16LE s ++ pcmBytes rest

/-! ## Inbound transcoder (createAudioDecoder / processAudioPacket) -/

/-- `webrtc.MimeTypePCMU` of the pion library. -/
def MimeTypePCMU : String := "audio/PCMU"

/-- `webrtc.MimeTypePCMA` of the pion library. -/
def MimeTypePCMA : String := "audio/PCMA"

/-- `webrtc.MimeTypeOpus` of the pion library. -/
def MimeTypeOpus : String := "audio/opus"

/-- The decoder handle produced by `createAudioDecoder`: the Go code
stores either `nil` (G.711, no stateful decoder) or an `*opus.Decoder`
in an `interface{}` value. -/
inductive AudioDecoder where
  | nil
  | opusDecoder
deriving DecidableEq

/-- `createAudioDecoder`: resolve the decoder for a track's codec once,
before the read loop starts. -/
def createAudioDecoder (mimeType : String) : Except String AudioDecoder :=
  if mimeType = MimeTypeOpus then Except.ok AudioDecoder.opusDecoder
  else if mimeType = MimeTypePCMA ∨ mimeType = MimeTypePCMU then Except.ok AudioDecoder.nil
  else Except.error ("unsupported codec: " ++ mimeType)

/-- `processAudioPacket`: convert one RTP payload to little-endian
16-bit PCM according to the codec identifier.  The Opus decode itself
is the external `opus.Decoder.Decode`, passed in as `opusDecode`. -/
def processAudioPacket (payload : List Nat) (mimeType : String)
    (decoder : AudioDecoder)
    (opusDecode : List Nat → Except String (List Int)) : Except String (List Nat) :=
  if mimeType = MimeTypePCMA then
    Except.ok (pcmBytes (payload.map decodeAlawFrame))
  else if mimeType = MimeTypePCMU then
    Except.ok (pcmBytes (payload.map decodeUlawFrame))
  else if mimeType = MimeTypeOpus then
    match decoder with
    | AudioDecoder.opusDecoder =>
      match opusDecode payload with
      | Except.ok pcm => Except.ok (pcmBytes pcm)
      | Except.error e => Except.error e
    | AudioDecoder.nil => Except.error "invalid opus decoder"
  else Except.error ("unsupported codec: " ++ mimeType)

/-- The per-packet part of the `handleIncomingAudio` read loop: each
payload is transcoded; a failing packet is logged and skipped
(`continue`), a successful one is forwarded to the voice session. -/
def audioReadLoop (mimeType : String) (decoder : AudioDecoder)
    (opusDecode : List Nat → Except String (List Int)) :
    List (List Nat) → List (List Nat)
  | [] => []
  | payload :: rest =>
    match processAudioPacket payload mimeType decoder opusDecode with
    | Except.error _ => audioReadLoop mimeType decoder opusDecode rest
    | Except.ok pcm => pcm :: audioReadLoop mimeType decoder opusDecode rest

/-- `handleIncomingAudio`: create the decoder for the track's codec
(returning before the loop if that fails), then run the read loop. -/
def handleIncomingAudio (mimeType : String)
    (opusDecode : List Nat → Except String (List Int))
    (packets : List (List Nat)) : List (List Nat) :=
  match createAudioDecoder mimeType with
  | Except.error _ => []
  | Except.ok decoder => audioReadLoop mimeType decoder opusDecode packets

/-! ## Outbound packetizer (processUltravoxAudio) -/

/-- The RTP packet assembled by `processUltravoxAudio`
(`rtp.Packet` header fields plus payload). -/
structure RtpPacket where
  version : Nat
  payloadType : Nat
  sequenceNumber : Nat
  timestamp : Nat
  ssrc : Nat
  payload : List Nat
deriving DecidableEq

/-- The per-session counters of `handleUltravoxWebSocket`:
`sequenceNumber` is a `uint16`, `timestamp` a `uint32`; both are kept
as `Nat` reduced modulo their width on every update. -/
structure SessState where
  seq : Nat
  ts : Nat
deriving DecidableEq

/-- `processUltravoxAudio`: encode one binary PCM message with the
fixed outbound mu-law codec, build one RTP packet (version 2, payload
type 0 = PCMU) from the current counters, then post-increment the
sequence by 1 and the timestamp by the number of encoded samples. -/
def processUltravoxAudio (pcmData : List Nat) (st : SessState) (ssrc : Nat) :
    RtpPacket × SessState :=
  ({ version := 2, payloadType := 0, sequenceNumber := st.seq, timestamp := st.ts,
     ssrc := ssrc, payload := (pcmSamples pcmData).map encodeUlawFrame },
   { seq := (st.seq + 1) % 65536,
     ts := (st.ts + ((pcmSamples pcmData).map encodeUlawFrame).length) % 4294967296 })

/-! ## JSON control messages

Modelled from the spec: the control frames are parsed by the external
`encoding/json` package (`json.Unmarshal` into `map[string]interface{}`,
which requires a single JSON object spanning the whole input).  The
parser below implements the JSON grammar; a `\u` escape is replaced by
a placeholder character, which is irrelevant here because only the
`"type"` field's plain-ASCII value is ever inspected. -/

/-- JSON values (numbers keep their lexeme, which is never inspected). -/
inductive Json where
  | null
  | bool (b : Bool)
  | num (lexeme : String)
  | str (s : String)
  | arr (elems : List Json)
  | obj (fields : List (String × Json))

/-- Skip JSON whitespace. -/
def skipWs : List Char → List Char
  | [] => []
  | c :: rest =>
    if c = ' ' ∨ c = '\t' ∨ c = '\n' ∨ c = '\r' then skipWs rest else c :: rest

/-- Hexadecimal digit test for `\u` escapes. -/
def isHexDigitC (c : Char) : Bool :=
  c.isDigit || ('a' ≤ c && c ≤ 'f') || ('A' ≤ c && c ≤ 'F')

/-- Single-character JSON escapes. -/
def escChar (e : Char) : Option Char :=
  if e = '"' then some '"' else if e = '\\' then some '\\'
  else if e = '/' then some '/' else if e = 'b' then some (Char.ofNat 8)
  else if e = 'f' then some (Char.ofNat 12) else if e = 'n' then some '\n'
  else if e = 'r' then some '\r' else if e = 't' then some '\t' else none

/-- Parse the contents of a JSON string after the opening quote,
returning the decoded characters and the remaining input. -/
def parseStringChars : List Char → Option (List Char × List Char)
  | [] => none
  | c :: rest =>
    if c = '"' then some ([], rest)
    else if c = '\\' then
      match rest with
      | [] => none
      | e :: rest2 =>
        if e = 'u' then
          match rest2 with
          | h1 :: h2 :: h3 :: h4 :: rest3 =>
            if isHexDigitC h1 && isHexDigitC h2 && isHexDigitC h3 && isHexDigitC h4 then
              match parseStringChars rest3 with
              | some (cs, r) => some ('?' :: cs, r)
              | none => none
            else none
          | _ => none
        else
          match escChar e with
          | some d =>
            match parseStringChars rest2 with
            | some (cs, r) => some (d :: cs, r)
            | none => none
          | none => none
    else if c.toNat < 0x20 then none
    else
      match parseStringChars rest with
      | some (cs, r) => some (c :: cs, r)
      | none => none

/-- Consume a maximal run of decimal digits. -/
def takeDigits : List Char → List Char × List Char
  | [] => ([], [])
  | c :: rest =>
    if c.isDigit then
      match takeDigits rest with
      | (ds, r) => (c :: ds, r)
    else ([], c :: rest)

/-- Integer part of a JSON number: `0` or a nonzero digit followed by
digits. -/
def parseIntPart : List Char → Option (List Char)
  | [] => none
  | c :: rest =>
    if c = '0' then some rest
    else if c.isDigit then some (takeDigits rest).2
    else none

/-- Optional fractional part of a JSON number. -/
def parseFracPart : List Char → Option (List Char)
  | '.' :: rest =>
    match takeDigits rest with
    | ([], _) => none
    | (_, r) => some r
  | s => some s

/-- Optional exponent part of a JSON number. -/
def parseExpPart : List Char → Option (List Char)
  | [] => some []
  | c :: rest =>
    if c = 'e' ∨ c = 'E' then
      match rest with
      | [] => none
      | d :: rest2 =>
        if d = '+' ∨ d = '-' then
          match takeDigits rest2 with
          | ([], _) => none
          | (_, r) => some r
        else
          match takeDigits (d :: rest2) with
          | ([], _) => none
          | (_, r) => some r
    else some (c :: rest)

/-- Remaining input after a JSON number (sign already inspected). -/
def parseNumberTail : List Char → Option (List Char)
  | '-' :: rest =>
    match parseIntPart rest with
    | none => none
    | some r1 =>
      match parseFracPart r1 with
      | none => none
      | some r2 => parseExpPart r2
  | s =>
    match parseIntPart s with
    | none => none
    | some r1 =>
      match parseFracPart r1 with
      | none => none
      | some r2 => parseExpPart r2

mutual

/-- Parse one JSON value (fuelled recursive descent; the fuel bounds
the nesting depth and is chosen large enough for any input). -/
def parseValue : Nat → List Char → Option (Json × List Char)
  | 0, _ => none
  | fuel + 1, s =>
    match skipWs s with
    | [] => none
    | c :: rest =>
      if c = 'n' then
        match rest with
        | 'u' :: 'l' :: 'l' :: r => some (Json.null, r)
        | _ => none
      else if c = 't' then
        match rest with
        | 'r' :: 'u' :: 'e' :: r => some (Json.bool true, r)
        | _ => none
      else if c = 'f' then
        match rest with
        | 'a' :: 'l' :: 's' :: 'e' :: r => some (Json.bool false, r)
        | _ => none
      else if c = '"' then
        match parseStringChars rest with
        | some (cs, r) => some (Json.str (String.mk cs), r)
        | none => none
      else if c = '[' then
        match skipWs rest with
        | ']' :: r => some (Json.arr [], r)
        | _ =>
          match parseElems fuel rest with
          | some (vs, r) => some (Json.arr vs, r)
          | none => none
      else if c = '\x7b' then
        match skipWs rest with
        | '\x7d' :: r => some (Json.obj [], r)
        | _ =>
          match parseFields fuel rest with
          | some (fs, r) => some (Json.obj fs, r)
          | none => none
      else if c = '-' ∨ c.isDigit then
        match parseNumberTail (c :: rest) with
        | some r =>
          some (Json.num (String.mk ((c :: rest).take ((c :: rest).length - r.length))), r)
        | none => none
      else none

/-- Parse the comma-separated elements of a non-empty JSON array,
including the closing bracket. -/
def parseElems : Nat → List Char → Option (List Json × List Char)
  | 0, _ => none
  | fuel + 1, s =>
    match parseValue fuel s with
    | none => none
    | some (v, r) =>
      match skipWs r with
      | ',' :: r2 =>
        match parseElems fuel r2 with
        | some (vs, r3) => some (v :: vs, r3)
        | none => none
      | ']' :: r2 => some ([v], r2)
      | _ => none

/-- Parse the comma-separated members of a non-empty JSON object,
including the closing brace. -/
def parseFields : Nat → List Char → Option (List (String × Json) × List Char)
  | 0, _ => none
  | fuel + 1, s =>
    match skipWs s with
    | '"' :: r0 =>
      match parseStringChars r0 with
      | none => none
      | some (key, r1) =>
        match skipWs r1 with
        | ':' :: r2 =>
          match parseValue fuel r2 with
          | none => none
          | some (v, r3) =>
            match skipWs r3 with
            | ',' :: r4 =>
              match parseFields fuel r4 with
              | some (fs, r5) => some ((String.mk key, v) :: fs, r5)
              | none => none
            | '\x7d' :: r4 => some ([(String.mk key, v)], r4)
            | _ => none
        | _ => none
    | _ => none

end

/-- Modelled from the spec: `json.Unmarshal(message, &map[string]interface{})`
of the external encoding/json package — succeeds exactly when the whole
input is one JSON object (with trailing whitespace allowed). -/
def jsonUnmarshalObj (s : String) : Option (List (String × Json)) :=
  match parseValue (2 * s.length + 2) s.data with
  | some (Json.obj fields, rest) => if skipWs rest = [] then some fields else none
  | _ => none

/-- Lookup of `event["type"]`: Go's map keeps the last duplicate key,
so the fold takes the last matching field. -/
def objGet (fields : List (String × Json)) (key : String) : Option Json :=
  fields.foldl (fun acc f => if f.1 = key then some f.2 else acc) none

/-! ## Control-channel dispatch (handleUltravoxJsonMessage) -/

/-- Outcome classification of one text frame in
`handleUltravoxJsonMessage`: `malformed` is the `json.Unmarshal` error
path (logged, return), `unknownJson` the missing/non-string `type`
field path (logged, return), `handled t` the path that reaches the
forward-and-dispatch code with event type `t`. -/
inductive JsonOutcome where
  | malformed
  | unknownJson
  | handled (eventType : String)
deriving DecidableEq

/-- The event types with a dedicated case in the dispatch switch. -/
def recognizedEventTypes : List String := ["transcript", "error", "state"]

/-- `handleUltravoxJsonMessage`: parse the frame; on success with a
string `type` field, forward the raw message verbatim to the client
WebSocket (when attached) and dispatch locally; otherwise log and
return.  Returns the outcome and the message forwarded to the
observer, if any. -/
def handleUltravoxJsonMessage (clientWs : Bool) (message : String) :
    JsonOutcome × Option String :=
  match jsonUnmarshalObj message with
  | none => (JsonOutcome.malformed, none)
  | some fields =>
    match objGet fields "type" with
    | some (Json.str t) =>
      (JsonOutcome.handled t, if clientWs then some message else none)
    | _ => (JsonOutcome.unknownJson, none)

/-- The string `type` field of a frame, when the frame parses as a
JSON object carrying one (the condition under which the code forwards
the frame). -/
def eventTypeOf (s : String) : Option String :=
  match jsonUnmarshalObj s with
  | some fields =>
    match objGet fields "type" with
    | some (Json.str t) => some t
    | _ => none
  | none => none

/-! ## Voice-session read loop (handleUltravoxWebSocket) -/

/-- One frame read from the voice-session WebSocket. -/
inductive WsMsg where
  | text (message : String)
  | binary (pcmData : List Nat)
  | other

/-- Observable output of a session's read loop: the RTP packets written
to the browser track, the messages mirrored to the observer, and the
final counter values. -/
structure LoopOut where
  packets : List RtpPacket
  forwards : List String
  final : SessState

/-- The read loop of `handleUltravoxWebSocket`: text frames go to
`handleUltravoxJsonMessage`, binary frames to `processUltravoxAudio`
(threading the counters), unexpected frame types are logged; no frame
kind terminates the loop (only a read error or cancellation does,
modelled by the end of the input list). -/
def runUltravoxLoop (clientWs : Bool) (ssrc : Nat) :
    List WsMsg → SessState → LoopOut
  | [], st => { packets := [], forwards := [], final := st }
  | WsMsg.text s :: rest, st =>
    let res := handleUltravoxJsonMessage clientWs s
    let out := runUltravoxLoop clientWs ssrc rest st
    { out with forwards :=
        match res.2 with
        | some m => m :: out.forwards
        | none => out.forwards }
  | WsMsg.binary pcm :: rest, st =>
    let ps := processUltravoxAudio pcm st ssrc
    let out := runUltravoxLoop clientWs ssrc rest ps.2
    { out with packets := ps.1 :: out.packets }
  | WsMsg.other :: rest, st => runUltravoxLoop clientWs ssrc rest st

/-- `handleUltravoxWebSocket`: a fresh session's read loop starts from
the local variables `sequenceNumber := uint16(0)`, `timestamp :=
uint32(0)`, `ssrc := 12345`. -/
def handleUltravoxWebSocket (clientWs : Bool) (msgs : List WsMsg) : LoopOut :=
  runUltravoxLoop clientWs 12345 msgs { seq := 0, ts := 0 }

/-- Two consecutive sessions: each invocation of
`handleUltravoxWebSocket` declares its own counters, so the second
session's output is built from the same fresh initial state whatever
the first session did. -/
def runTwoSessions (cwA cwB : Bool) (msgsA msgsB : List WsMsg) : LoopOut × LoopOut :=
  (handleUltravoxWebSocket cwA msgsA, handleUltravoxWebSocket cwB msgsB)

/-! ## Session registry and peer-connection handler -/

/-- `UltravoxConnection`: the bridge session owned by one WebRTC
connection (the `sync.Mutex`, `context.Context` and `CancelFunc`
fields are concurrency plumbing with no data content and are not
modelled). -/
structure UltravoxConnection where
  wsConn : Option Nat
  joinURL : String
  audioTrack : Nat
  clientWs : Option Nat
deriving DecidableEq

/-- `setActiveUltravoxConnection`: unconditionally overwrite the
single registry slot (the global `activeUltravoxConnection`). -/
def setActiveUltravoxConnection (_ : Option UltravoxConnection)
    (conn : UltravoxConnection) : Option UltravoxConnection :=
  some conn

/-- `findActiveUltravoxConnection`: read the single registry slot. -/
def findActiveUltravoxConnection (reg : Option UltravoxConnection) :
    Option UltravoxConnection := reg

/-- `webrtc.ICEConnectionState` values inspected by the handler. -/
inductive ICEConnectionState where
  | new
  | checking
  | connected
  | completed
  | disconnected
  | failed
  | closed
deriving DecidableEq

/-- State touched by the `OnICEConnectionStateChange` callback: the
session registry and the `done` channel of the WebRTC connection. -/
structure PeerHandlerState where
  registry : Option UltravoxConnection
  doneClosed : Bool
deriving DecidableEq

/-- The `UltravoxConnection` literal built in the `connected` branch
(`&UltravoxConnection{audioTrack: audioTrack, wsLock: sync.Mutex{}}`;
remaining fields are zero values). -/
def newUltravoxConnection (audioTrack : Nat) : UltravoxConnection :=
  { wsConn := none, joinURL := "", audioTrack := audioTrack, clientWs := none }

/-- The `OnICEConnectionStateChange` callback of
`setupPeerConnectionHandlers`: on `connected` it registers a fresh
session; on `disconnected`, `failed` or `closed` it closes the `done`
channel; other states only log. -/
def onICEConnectionStateChange (audioTrack : Nat) (st : PeerHandlerState)
    (cs : ICEConnectionState) : PeerHandlerState :=
  if cs = ICEConnectionState.connected then
    { st with registry :=
        setActiveUltravoxConnection st.registry (newUltravoxConnection audioTrack) }
  else if cs = ICEConnectionState.disconnected ∨ cs = ICEConnectionState.failed
      ∨ cs = ICEConnectionState.closed then
    { st with doneClosed := true }
  else st

/-! ## Checker soundness and mu-law round-trip lemmas -/

theorem chkUlaw_sound : ∀ fuel lo size, chkUlaw fuel lo size = true →
    ∀ n, lo ≤ n → n < lo + size → ulawKOk n = true := by
  intro fuel
  induction fuel with
  | zero =>
    intro lo size h n hn1 hn2
    have hstep : chkUlaw 0 lo size = (size == 0 || (size == 1 && ulawKOk lo)) := rfl
    rw [hstep] at h
    simp only [Bool.or_eq_true, Bool.and_eq_true, beq_iff_eq] at h
    rcases h with h | ⟨h1, h2⟩
    · omega
    · have hn : n = lo := by omega
      subst hn
      exact h2
  | succ fuel ih =>
    intro lo size h n hn1 hn2
    have hstep : chkUlaw (fuel + 1) lo size =
        (if size == 0 then true
         else if size == 1 then ulawKOk lo
         else chkUlaw fuel lo (size / 2) &&
              chkUlaw fuel (lo + size / 2) (size - size / 2)) := rfl
    rw [hstep] at h
    by_cases h0 : size = 0
    · omega
    · by_cases h1 : size = 1
      · have hn : n = lo := by omega
        subst hn
        rw [if_neg (by simpa using h0), if_pos (by simpa using h1)] at h
        exact h
      · simp only [beq_iff_eq, h0, h1, if_false, Bool.and_eq_true] at h
        by_cases hlt : n < lo + size / 2
        · exact ih lo (size / 2) h.1 n hn1 hlt
        · exact ih (lo + size / 2) (size - size / 2) h.2 n (by omega) (by omega)

set_option maxHeartbeats 12000000 in
theorem chkUlaw_all : chkUlaw 14 0 8193 = true := by decide

theorem ulawSegN_le (p : Nat) : ulawSegN p ≤ 8 := by
  unfold ulawSegN
  repeat' split
  all_goals omega

theorem ulawBody_lt (k : Nat) : ulawBody k < 128 := by
  unfold ulawBody
  split
  · omega
  · rename_i h
    have hseg : ulawSegN (min k 8159 + 33) ≤ 7 := by
      have := ulawSegN_le (min k 8159 + 33)
      omega
    have h1 : ulawSegN (min k 8159 + 33) <<< 4 < 2 ^ 7 := by
      rw [Nat.shiftLeft_eq]
      omega
    have h2 : (min k 8159 + 33) >>> (ulawSegN (min k 8159 + 33) + 1) &&& 0xF < 2 ^ 7 := by
      have := Nat.and_le_right
        (n := (min k 8159 + 33) >>> (ulawSegN (min k 8159 + 33) + 1)) (m := 0xF)
      omega
    have h3 := Nat.or_lt_two_pow h1 h2
    simpa using h3

set_option maxRecDepth 4096 in
theorem and80_eq_zero : ∀ x, x < 128 → x &&& 0x80 = 0 := by decide

set_option maxRecDepth 4096 in
theorem xor80_and80 : ∀ x, x < 128 → (x ^^^ 0x80) &&& 0x80 = 0x80 := by decide

set_option maxRecDepth 4096 in
theorem ulawT_xor80 : ∀ x, x < 128 → ulawT (x ^^^ 0x80) = ulawT x := by decide

set_option maxRecDepth 4096 in
theorem ulawT_ge : ∀ x, x < 256 → 0x84 ≤ ulawT x := by decide

theorem xorFF_lt (b : Nat) (h : b < 128) : b ^^^ 0xFF < 256 := by
  have := Nat.xor_lt_two_pow (n := 8) (by omega : b < 2 ^ 8) (by omega : 0xFF < 2 ^ 8)
  omega

theorem xor7F_lt (b : Nat) (h : b < 128) : b ^^^ 0x7F < 256 := by
  have := Nat.xor_lt_two_pow (n := 8) (by omega : b < 2 ^ 8) (by omega : 0x7F < 2 ^ 8)
  omega

theorem ulaw_enc_dec_pos (s : Int) (h : 0 ≤ s) :
    decodeUlawFrame (encodeUlawFrame s) = ((ulawDecMag (s.toNat / 4) : Nat) : Int) := by
  have hb := ulawBody_lt (s.toNat / 4)
  have henc : encodeUlawFrame s = ulawBody (s.toNat / 4) ^^^ 0xFF := by
    unfold encodeUlawFrame
    rw [if_neg (by omega)]
  rw [henc]
  unfold decodeUlawFrame
  rw [Nat.mod_eq_of_lt (xorFF_lt _ hb)]
  rw [Nat.xor_cancel_right]
  rw [if_neg (by simp [and80_eq_zero _ hb])]
  have ht := ulawT_ge (ulawBody (s.toNat / 4)) (by omega)
  unfold ulawDecMag
  omega

theorem ulaw_enc_dec_neg (s : Int) (h : s < 0) :
    decodeUlawFrame (encodeUlawFrame s) =
      -((ulawDecMag (((-s).toNat + 3) / 4) : Nat) : Int) := by
  have hb := ulawBody_lt (((-s).toNat + 3) / 4)
  have henc : encodeUlawFrame s = ulawBody (((-s).toNat + 3) / 4) ^^^ 0x7F := by
    unfold encodeUlawFrame
    rw [if_pos h]
  rw [henc]
  unfold decodeUlawFrame
  rw [Nat.mod_eq_of_lt (xor7F_lt _ hb)]
  have hxor : (ulawBody (((-s).toNat + 3) / 4) ^^^ 0x7F) ^^^ 0xFF =
      ulawBody (((-s).toNat + 3) / 4) ^^^ 0x80 := by
    rw [Nat.xor_assoc, (by decide : (0x7F : Nat) ^^^ 0xFF = 0x80)]
  rw [hxor]
  rw [if_pos (by rw [xor80_and80 _ hb]; omega)]
  rw [ulawT_xor80 _ hb]
  have ht := ulawT_ge (ulawBody (((-s).toNat + 3) / 4)) (by omega)
  unfold ulawDecMag
  omega

theorem ulawKOk_spec (k : Nat) (h : ulawKOk k = true) :
    ulawDecMag k ≤ (if k = 0 then 0 else 4 * k - 3) + 644 ∧
    (if k = 8192 then 4 * k else 4 * k + 3) ≤ ulawDecMag k + 644 := by
  simp only [ulawKOk, Bool.and_eq_true, decide_eq_true_eq] at h
  exact h

theorem ulawDecMag_close (v k : Nat) (hk : ulawKOk k = true)
    (hlo : (if k = 0 then 0 else 4 * k - 3) ≤ v)
    (hhi : v ≤ (if k = 8192 then 4 * k else 4 * k + 3)) :
    ulawDecMag k ≤ v + 644 ∧ v ≤ ulawDecMag k + 644 := by
  rcases ulawKOk_spec k hk with ⟨ha, hb⟩
  by_cases h0 : k = 0
  · subst h0
    simp only [if_pos rfl] at ha hlo
    simp only [if_neg (by omega : (0 : Nat) ≠ 8192)] at hb hhi
    omega
  · by_cases h8 : k = 8192
    · subst h8
      simp only [if_neg (by omega : (8192 : Nat) ≠ 0)] at ha hlo
      simp only [if_pos rfl] at hb hhi
      omega
    · simp only [if_neg h0, if_neg h8] at ha hb hlo hhi
      omega

/-- Claim C8: encoding any 16-bit PCM sample with the G.711 mu-law
waveform codec and decoding the companded byte back yields a sample
within the codec's quantization tolerance (at most 644, attained at
the clipped extremes) of the original — lossy but bounded, not exact. -/
theorem ulaw_roundtrip_bounded :
    (∀ s : Int, -32768 ≤ s → s ≤ 32767 →
      (decodeUlawFrame (encodeUlawFrame s) - s).natAbs ≤ 644) ∧
    decodeUlawFrame (encodeUlawFrame 1000) ≠ 1000 := by
  constructor
  · intro s h1 h2
    by_cases hs : s < 0
    · have hv1 : 1 ≤ (-s).toNat := by omega
      have hv2 : (-s).toNat ≤ 32768 := by omega
      have hk2 : ((-s).toNat + 3) / 4 ≤ 8192 := by omega
      have hok := chkUlaw_sound 14 0 8193 chkUlaw_all (((-s).toNat + 3) / 4)
        (by omega) (by omega)
      have hlo : (if ((-s).toNat + 3) / 4 = 0 then 0
          else 4 * (((-s).toNat + 3) / 4) - 3) ≤ (-s).toNat := by
        by_cases h0 : ((-s).toNat + 3) / 4 = 0
        · rw [if_pos h0]; omega
        · rw [if_neg h0]; omega
      have hhi : (-s).toNat ≤ (if ((-s).toNat + 3) / 4 = 8192
          then 4 * (((-s).toNat + 3) / 4) else 4 * (((-s).toNat + 3) / 4) + 3) := by
        by_cases h8 : ((-s).toNat + 3) / 4 = 8192
        · rw [if_pos h8]; omega
        · rw [if_neg h8]; omega
      rcases ulawDecMag_close (-s).toNat (((-s).toNat + 3) / 4) hok hlo hhi with ⟨hc1, hc2⟩
      rw [ulaw_enc_dec_neg s hs]
      omega
    · have hv : s.toNat ≤ 32767 := by omega
      have hok := chkUlaw_sound 14 0 8193 chkUlaw_all (s.toNat / 4)
        (by omega) (by omega)
      have hlo : (if s.toNat / 4 = 0 then 0 else 4 * (s.toNat / 4) - 3) ≤ s.toNat := by
        by_cases h0 : s.toNat / 4 = 0
        · rw [if_pos h0]; omega
        · rw [if_neg h0]; omega
      have hhi : s.toNat ≤ (if s.toNat / 4 = 8192
          then 4 * (s.toNat / 4) else 4 * (s.toNat / 4) + 3) := by
        rw [if_neg (by omega : ¬ s.toNat / 4 = 8192)]
        omega
      rcases ulawDecMag_close s.toNat (s.toNat / 4) hok hlo hhi with ⟨hc1, hc2⟩
      rw [ulaw_enc_dec_pos s (by omega)]
      omega
  · decide

/-- Witness for C8 at the concrete sample 1000 (decoded value 988). -/
theorem ulaw_roundtrip_bounded_witness :
    (decodeUlawFrame (encodeUlawFrame 1000) - 1000).natAbs ≤ 644 :=
  ulaw_roundtrip_bounded.1 1000 (by decide) (by decide)

/-! ## Packetizer length and counter lemmas -/

theorem pcmSamples_length : ∀ xs : List Nat, (pcmSamples xs).length = xs.length / 2
  | [] => rfl
  | [_] => by simp [pcmSamples]
  | lo :: hi :: rest => by
    have ih := pcmSamples_length rest
    simp only [pcmSamples, List.length_cons, ih]
    omega

theorem pcmSamples_append_even : ∀ (xs : List Nat) (b : Nat), xs.length % 2 = 0 →
    pcmSamples (xs ++ [b]) = pcmSamples xs
  | [], _, _ => rfl
  | [x], _, h => absurd h (by simp)
  | lo :: hi :: rest, b, h => by
    have ih := pcmSamples_append_even rest b
      (by simp only [List.length_cons] at h ⊢; omega)
    show leInt16 lo hi :: pcmSamples (rest ++ [b]) = leInt16 lo hi :: pcmSamples rest
    rw [ih]

theorem pcmBytes_length : ∀ samples : List Int, (pcmBytes samples).length = 2 * samples.length
  | [] => rfl
  | s :: rest => by
    have ih := pcmBytes_length rest
    simp only [pcmBytes, putUint16LE, List.length_append, List.length_cons,
      List.length_nil, List.length_cons, ih]
    omega

theorem processUltravoxAudio_seq (pcm : List Nat) (st : SessState) (ssrc : Nat) :
    (processUltravoxAudio pcm st ssrc).2.seq = (st.seq + 1) % 65536 := rfl

theorem processUltravoxAudio_ts (pcm : List Nat) (st : SessState) (ssrc : Nat) :
    (processUltravoxAudio pcm st ssrc).2.ts = (st.ts + pcm.length / 2) % 4294967296 := by
  show (st.ts + ((pcmSamples pcm).map encodeUlawFrame).length) % 4294967296 = _
  rw [List.length_map, pcmSamples_length]

theorem processUltravoxAudio_payload_length (pcm : List Nat) (st : SessState) (ssrc : Nat) :
    (processUltravoxAudio pcm st ssrc).1.payload.length = pcm.length / 2 := by
  show ((pcmSamples pcm).map encodeUlawFrame).length = _
  rw [List.length_map, pcmSamples_length]

theorem runUltravoxLoop_binary_final (cw : Bool) (ssrc : Nat) (pcm : List Nat)
    (rest : List WsMsg) (st : SessState) :
    (runUltravoxLoop cw ssrc (WsMsg.binary pcm :: rest) st).final =
      (runUltravoxLoop cw ssrc rest (processUltravoxAudio pcm st ssrc).2).final := rfl

theorem runUltravoxLoop_text_eq (cw : Bool) (ssrc : Nat) (s : String)
    (rest : List WsMsg) (st : SessState) :
    runUltravoxLoop cw ssrc (WsMsg.text s :: rest) st =
      { packets := (runUltravoxLoop cw ssrc rest st).packets,
        forwards :=
          match (handleUltravoxJsonMessage cw s).2 with
          | some m => m :: (runUltravoxLoop cw ssrc rest st).forwards
          | none => (runUltravoxLoop cw ssrc rest st).forwards,
        final := (runUltravoxLoop cw ssrc rest st).final } := rfl

theorem runUltravoxLoop_binary_counters :
    ∀ (cw : Bool) (ssrc : Nat) (pcms : List (List Nat)) (st : SessState),
    st.seq < 65536 → st.ts < 4294967296 →
    (runUltravoxLoop cw ssrc (pcms.map WsMsg.binary) st).final.seq
        = (st.seq + pcms.length) % 65536 ∧
    (runUltravoxLoop cw ssrc (pcms.map WsMsg.binary) st).final.ts
        = (st.ts + (pcms.map (fun p => p.length / 2)).sum) % 4294967296 := by
  intro cw ssrc pcms
  induction pcms with
  | nil =>
    intro st hseq hts
    exact ⟨by simp [runUltravoxLoop, Nat.mod_eq_of_lt hseq],
           by simp [runUltravoxLoop, Nat.mod_eq_of_lt hts]⟩
  | cons p ps ih =>
    intro st hseq hts
    have hih := ih (processUltravoxAudio p st ssrc).2
      (by rw [processUltravoxAudio_seq]; exact Nat.mod_lt _ (by omega))
      (by rw [processUltravoxAudio_ts]; exact Nat.mod_lt _ (by omega))
    constructor
    · rw [List.map_cons, runUltravoxLoop_binary_final, hih.1, processUltravoxAudio_seq]
      simp only [List.length_cons]
      omega
    · rw [List.map_cons, runUltravoxLoop_binary_final, hih.2, processUltravoxAudio_ts]
      simp only [List.map_cons, List.sum_cons]
      omega

/-- Claim C1: after the packetizer has processed N binary PCM messages
the sequence equals (initial sequence + N) mod 65536 and the timestamp
equals (initial timestamp + sum of the encoded sample counts) mod 2^32
(the initial timestamp of a session is 0); and each single call
advances the sequence by exactly 1 (mod 2^16) and the timestamp by
exactly the packet's encoded sample count (mod 2^32). -/
theorem packetizer_counter_invariant :
    ∀ (cw : Bool) (ssrc : Nat) (pcms : List (List Nat)) (st : SessState),
    st.seq < 65536 → st.ts < 4294967296 →
    ((runUltravoxLoop cw ssrc (pcms.map WsMsg.binary) st).final.seq
        = (st.seq + pcms.length) % 65536 ∧
     (runUltravoxLoop cw ssrc (pcms.map WsMsg.binary) st).final.ts
        = (st.ts + (pcms.map (fun p => p.length / 2)).sum) % 4294967296) ∧
    ∀ (pcm : List Nat) (st1 : SessState),
      (processUltravoxAudio pcm st1 ssrc).2.seq = (st1.seq + 1) % 65536 ∧
      (processUltravoxAudio pcm st1 ssrc).2.ts =
        (st1.ts + pcm.length / 2) % 4294967296 := by
  intro cw ssrc pcms st hseq hts
  exact ⟨runUltravoxLoop_binary_counters cw ssrc pcms st hseq hts,
         fun pcm st1 => ⟨rfl, processUltravoxAudio_ts pcm st1 ssrc⟩⟩

/-- Witness for C1: two packets of 1 and 1 samples from a fresh session. -/
theorem packetizer_counter_invariant_witness :
    (runUltravoxLoop true 12345 ([[1, 2], [3, 4, 5]].map WsMsg.binary)
        { seq := 0, ts := 0 }).final.seq = (0 + 2) % 65536 :=
  (packetizer_counter_invariant true 12345 [[1, 2], [3, 4, 5]]
      { seq := 0, ts := 0 } (by decide) (by decide)).1.1

/-- Claim C10: a binary PCM message of L bytes yields a packet payload
of exactly floor(L/2) companded bytes and advances the timestamp by
exactly floor(L/2); when L is odd the trailing byte is silently
ignored rather than causing an error. -/
theorem packetizer_floor_semantics :
    ∀ (pcm : List Nat) (st : SessState) (ssrc : Nat),
    ((processUltravoxAudio pcm st ssrc).1.payload.length = pcm.length / 2 ∧
     (processUltravoxAudio pcm st ssrc).2.ts = (st.ts + pcm.length / 2) % 4294967296) ∧
    ∀ b : Nat, pcm.length % 2 = 0 →
      (processUltravoxAudio (pcm ++ [b]) st ssrc).1.payload =
        (processUltravoxAudio pcm st ssrc).1.payload := by
  intro pcm st ssrc
  refine ⟨⟨processUltravoxAudio_payload_length pcm st ssrc,
           processUltravoxAudio_ts pcm st ssrc⟩, ?_⟩
  intro b hb
  show ((pcmSamples (pcm ++ [b])).map encodeUlawFrame) =
    ((pcmSamples pcm).map encodeUlawFrame)
  rw [pcmSamples_append_even pcm b hb]

/-- Witness for C10: an even 2-byte message with one trailing byte. -/
theorem packetizer_floor_semantics_witness :
    (processUltravoxAudio ([10, 20] ++ [5]) { seq := 0, ts := 0 } 12345).1.payload =
      (processUltravoxAudio [10, 20] { seq := 0, ts := 0 } 12345).1.payload :=
  (packetizer_floor_semantics [10, 20] { seq := 0, ts := 0 } 12345).2 5 (by decide)

/-- Claim C2: a 160-byte inbound G.711 packet (mu-law or A-law)
decodes to 320 bytes of little-endian 16-bit PCM, and handing that PCM
to the outbound packetizer yields a payload of exactly 160 bytes and
advances the outbound timestamp by exactly 160. -/
theorem g711_roundtrip_length_and_timestamp :
    ∀ (payload : List Nat) (mime : String) (st : SessState) (ssrc : Nat)
      (opusDecode : List Nat → Except String (List Int)),
    payload.length = 160 → (mime = MimeTypePCMA ∨ mime = MimeTypePCMU) →
    ∃ pcm : List Nat,
      processAudioPacket payload mime AudioDecoder.nil opusDecode = Except.ok pcm ∧
      pcm.length = 320 ∧
      (processUltravoxAudio pcm st ssrc).1.payload.length = 160 ∧
      (processUltravoxAudio pcm st ssrc).2.ts = (st.ts + 160) % 4294967296 := by
  intro payload mime st ssrc opusD hlen hmime
  rcases hmime with h | h
  · subst h
    refine ⟨pcmBytes (payload.map decodeAlawFrame), ?_, ?_, ?_, ?_⟩
    · unfold processAudioPacket
      rw [if_pos rfl]
    · rw [pcmBytes_length, List.length_map, hlen]
    · rw [processUltravoxAudio_payload_length, pcmBytes_length, List.length_map, hlen]
    · rw [processUltravoxAudio_ts, pcmBytes_length, List.length_map, hlen]
  · subst h
    refine ⟨pcmBytes (payload.map decodeUlawFrame), ?_, ?_, ?_, ?_⟩
    · unfold processAudioPacket
      rw [if_neg (by decide), if_pos rfl]
    · rw [pcmBytes_length, List.length_map, hlen]
    · rw [processUltravoxAudio_payload_length, pcmBytes_length, List.length_map, hlen]
    · rw [processUltravoxAudio_ts, pcmBytes_length, List.length_map, hlen]

/-- Witness for C2: a 160-byte mu-law payload of silence. -/
theorem g711_roundtrip_length_and_timestamp_witness :
    ∃ pcm : List Nat,
      processAudioPacket (List.replicate 160 0) MimeTypePCMU AudioDecoder.nil
          (fun _ => Except.error "") = Except.ok pcm ∧
      pcm.length = 320 ∧
      (processUltravoxAudio pcm { seq := 0, ts := 0 } 12345).1.payload.length = 160 ∧
      (processUltravoxAudio pcm { seq := 0, ts := 0 } 12345).2.ts =
        (0 + 160) % 4294967296 :=
  g711_roundtrip_length_and_timestamp (List.replicate 160 0) MimeTypePCMU
    { seq := 0, ts := 0 } 12345 (fun _ => Except.error "") (by simp) (Or.inr rfl)

/-! ## Session lifecycle, control dispatch, registry -/

/-- Claim C3: a fresh voice-session read loop starts with both
counters at zero: the second session's whole output is independent of
anything the first session did, and its first packet (when the first
frame is binary) carries sequence number 0 and timestamp 0. -/
theorem fresh_session_counters_zero :
    ∀ (cwA cwB : Bool) (msgsA msgsA' : List WsMsg) (pcm : List Nat) (rest : List WsMsg),
    (runTwoSessions cwA cwB msgsA (WsMsg.binary pcm :: rest)).2 =
      (runTwoSessions cwA cwB msgsA' (WsMsg.binary pcm :: rest)).2 ∧
    ((runTwoSessions cwA cwB msgsA (WsMsg.binary pcm :: rest)).2.packets.head?).map
        (fun p => (p.sequenceNumber, p.timestamp)) = some (0, 0) := by
  intro cwA cwB msgsA msgsA' pcm rest
  exact ⟨rfl, rfl⟩

/-- Claim C4: a text frame whose bytes are not valid JSON makes
`handleUltravoxJsonMessage` take the logged error-return path, forwards
nothing, and the read loop's output over the remaining frames is
unchanged — the loop is not terminated. -/
theorem malformed_text_frame_nonfatal :
    ∀ (cw : Bool) (s : String) (msgs : List WsMsg) (st : SessState) (ssrc : Nat),
    jsonUnmarshalObj s = none →
    handleUltravoxJsonMessage cw s = (JsonOutcome.malformed, none) ∧
    runUltravoxLoop cw ssrc (WsMsg.text s :: msgs) st = runUltravoxLoop cw ssrc msgs st := by
  intro cw s msgs st ssrc h
  have hh : handleUltravoxJsonMessage cw s = (JsonOutcome.malformed, none) := by
    unfold handleUltravoxJsonMessage
    rw [h]
  refine ⟨hh, ?_⟩
  rw [runUltravoxLoop_text_eq, hh]

/-- Witness for C4: the concrete malformed frame of the spec. -/
theorem malformed_text_frame_nonfatal_witness :
    handleUltravoxJsonMessage true "\x7bnot valid json" = (JsonOutcome.malformed, none) ∧
    runUltravoxLoop true 12345 [WsMsg.text "\x7bnot valid json"] { seq := 0, ts := 0 } =
      runUltravoxLoop true 12345 [] { seq := 0, ts := 0 } :=
  malformed_text_frame_nonfatal true "\x7bnot valid json" [] { seq := 0, ts := 0 }
    12345 rfl

/-- Claim C5: a payload tagged with a codec identifier outside the
supported set makes `processAudioPacket` fail with the unsupported
codec error, the packet is dropped, and the read loop continues with
the next packet. -/
theorem unsupported_codec_packet_dropped :
    ∀ (mime : String) (payload : List Nat) (decoder : AudioDecoder)
      (opusDecode : List Nat → Except String (List Int)) (rest : List (List Nat)),
    mime ∉ [MimeTypePCMA, MimeTypePCMU, MimeTypeOpus] →
    processAudioPacket payload mime decoder opusDecode =
      Except.error ("unsupported codec: " ++ mime) ∧
    audioReadLoop mime decoder opusDecode (payload :: rest) =
      audioReadLoop mime decoder opusDecode rest := by
  intro mime payload dec opusD rest h
  simp only [List.mem_cons, List.not_mem_nil, or_false, not_or] at h
  obtain ⟨h1, h2, h3⟩ := h
  have hp : processAudioPacket payload mime dec opusD =
      Except.error ("unsupported codec: " ++ mime) := by
    unfold processAudioPacket
    rw [if_neg h1, if_neg h2, if_neg h3]
  refine ⟨hp, ?_⟩
  show (match processAudioPacket payload mime dec opusD with
        | Except.error _ => audioReadLoop mime dec opusD rest
        | Except.ok pcm => pcm :: audioReadLoop mime dec opusD rest) =
      audioReadLoop mime dec opusD rest
  rw [hp]

/-- Witness for C5: a G.722-tagged packet among PCMU-capable state. -/
theorem unsupported_codec_packet_dropped_witness :
    processAudioPacket [1, 2, 3] "audio/G722" AudioDecoder.nil
        (fun _ => Except.error "") =
      Except.error ("unsupported codec: " ++ "audio/G722") ∧
    audioReadLoop "audio/G722" AudioDecoder.nil (fun _ => Except.error "")
        [[1, 2, 3], [4]] =
      audioReadLoop "audio/G722" AudioDecoder.nil (fun _ => Except.error "") [[4]] :=
  unsupported_codec_packet_dropped "audio/G722" [1, 2, 3] AudioDecoder.nil
    (fun _ => Except.error "") [[4]] (by decide)

/-- Counterexample to claim C6: the frame with the unrecognized event
type "bogus" parses with a string type field, so the code forwards it
verbatim to the observer before the dispatch switch reaches its
default (log-only) case — the claim says such a message is dropped. -/
theorem observer_forward_unrecognized_cex :
    (handleUltravoxJsonMessage true "\x7b\"type\":\"bogus\"\x7d").2 =
      some "\x7b\"type\":\"bogus\"\x7d" ∧
    recognizedEventTypes.contains "bogus" = false ∧
    (handleUltravoxJsonMessage true "\x7b\"type\":\"bogus\"\x7d").1 =
      JsonOutcome.handled "bogus" := by
  exact ⟨rfl, rfl, rfl⟩

/-- Claim C6 as amended: a text frame is forwarded verbatim to the
observer (when one is attached) exactly when it parses as a JSON
object with a string `type` field — whether or not that type is one of
the recognized kinds; otherwise nothing is forwarded. -/
theorem observer_forward_exactly_typed :
    ∀ (cw : Bool) (s : String),
    ((handleUltravoxJsonMessage cw s).2 = some s ↔
      cw = true ∧ (eventTypeOf s).isSome = true) ∧
    ((handleUltravoxJsonMessage cw s).2 = some s ∨
      (handleUltravoxJsonMessage cw s).2 = none) := by
  intro cw s
  rcases hj : jsonUnmarshalObj s with _ | fields
  · have hh : handleUltravoxJsonMessage cw s = (JsonOutcome.malformed, none) := by
      unfold handleUltravoxJsonMessage
      rw [hj]
    have he : eventTypeOf s = none := by
      unfold eventTypeOf
      rw [hj]
    rw [hh, he]
    simp
  · rcases ho : objGet fields "type" with _ | j
    · have hh : handleUltravoxJsonMessage cw s = (JsonOutcome.unknownJson, none) := by
        unfold handleUltravoxJsonMessage
        simp only [hj, ho]
      have he : eventTypeOf s = none := by
        unfold eventTypeOf
        simp only [hj, ho]
      rw [hh, he]
      simp
    · cases j with
      | str t =>
        have hh : handleUltravoxJsonMessage cw s =
            (JsonOutcome.handled t, if cw then some s else none) := by
          unfold handleUltravoxJsonMessage
          simp only [hj, ho]
        have he : eventTypeOf s = some t := by
          unfold eventTypeOf
          simp only [hj, ho]
        rw [hh, he]
        cases cw <;> simp
      | null =>
        have hh : handleUltravoxJsonMessage cw s = (JsonOutcome.unknownJson, none) := by
          unfold handleUltravoxJsonMessage
          simp only [hj, ho]
        have he : eventTypeOf s = none := by
          unfold eventTypeOf
          simp only [hj, ho]
        rw [hh, he]
        simp
      | bool b =>
        have hh : handleUltravoxJsonMessage cw s = (JsonOutcome.unknownJson, none) := by
          unfold handleUltravoxJsonMessage
          simp only [hj, ho]
        have he : eventTypeOf s = none := by
          unfold eventTypeOf
          simp only [hj, ho]
        rw [hh, he]
        simp
      | num l =>
        have hh : handleUltravoxJsonMessage cw s = (JsonOutcome.unknownJson, none) := by
          unfold handleUltravoxJsonMessage
          simp only [hj, ho]
        have he : eventTypeOf s = none := by
          unfold eventTypeOf
          simp only [hj, ho]
        rw [hh, he]
        simp
      | arr es =>
        have hh : handleUltravoxJsonMessage cw s = (JsonOutcome.unknownJson, none) := by
          unfold handleUltravoxJsonMessage
          simp only [hj, ho]
        have he : eventTypeOf s = none := by
          unfold eventTypeOf
          simp only [hj, ho]
        rw [hh, he]
        simp
      | obj fs =>
        have hh : handleUltravoxJsonMessage cw s = (JsonOutcome.unknownJson, none) := by
          unfold handleUltravoxJsonMessage
          simp only [hj, ho]
        have he : eventTypeOf s = none := by
          unfold eventTypeOf
          simp only [hj, ho]
        rw [hh, he]
        simp

/-- Witness for the amended C6: a recognized-kind frame is forwarded. -/
theorem observer_forward_exactly_typed_witness :
    (handleUltravoxJsonMessage true "\x7b\"type\":\"state\"\x7d").2 =
      some "\x7b\"type\":\"state\"\x7d" :=
  (observer_forward_exactly_typed true "\x7b\"type\":\"state\"\x7d").1.mpr ⟨rfl, rfl⟩

/-- Claim C7: after `SetActive(A)` then `SetActive(B)`, `GetActive`
returns exactly session B — every field of B, none of A — because the
setter unconditionally overwrites the single slot. -/
theorem registry_set_get_last_wins :
    ∀ (prior : Option UltravoxConnection) (A B : UltravoxConnection),
    findActiveUltravoxConnection
        (setActiveUltravoxConnection (setActiveUltravoxConnection prior A) B) = some B ∧
    (findActiveUltravoxConnection
        (setActiveUltravoxConnection (setActiveUltravoxConnection prior A) B)).map
        (fun c => (c.wsConn, c.joinURL, c.audioTrack, c.clientWs)) =
      some (B.wsConn, B.joinURL, B.audioTrack, B.clientWs) := by
  intro prior A B
  exact ⟨rfl, rfl⟩

/-- Counterexample to claim C9: after the media connection observes
the terminal state `failed`, the registry still holds the very session
it held before — the handler only closes the `done` channel and never
dereferences the registry slot. -/
theorem terminal_state_keeps_registry_cex :
    (onICEConnectionStateChange 2
        { registry := some { wsConn := some 7, joinURL := "wss://old", audioTrack := 1,
                             clientWs := none },
          doneClosed := false }
        ICEConnectionState.failed).registry =
      some { wsConn := some 7, joinURL := "wss://old", audioTrack := 1,
             clientWs := none } ∧
    (onICEConnectionStateChange 2
        { registry := some { wsConn := some 7, joinURL := "wss://old", audioTrack := 1,
                             clientWs := none },
          doneClosed := false }
        ICEConnectionState.failed).registry.isSome = true := by
  exact ⟨rfl, rfl⟩

/-- Claim C9 as amended: on a terminal connection state the handler
closes the `done` channel and leaves the registry reference in place;
the old session only becomes unreachable through the registry when a
later `connected` transition registers a replacement session. -/
theorem terminal_state_closes_done_only :
    ∀ (track : Nat) (st : PeerHandlerState) (cs : ICEConnectionState),
    ((cs = ICEConnectionState.disconnected ∨ cs = ICEConnectionState.failed ∨
        cs = ICEConnectionState.closed) →
      (onICEConnectionStateChange track st cs).registry = st.registry ∧
      (onICEConnectionStateChange track st cs).doneClosed = true) ∧
    (onICEConnectionStateChange track st ICEConnectionState.connected).registry =
      some (newUltravoxConnection track) := by
  intro track st cs
  refine ⟨?_, rfl⟩
  intro hcs
  rcases hcs with h | h | h <;> subst h <;> exact ⟨rfl, rfl⟩

/-- Witness for the amended C9 at the `failed` state. -/
theorem terminal_state_closes_done_only_witness :
    (onICEConnectionStateChange 2 { registry := none, doneClosed := false }
        ICEConnectionState.failed).registry = none ∧
    (onICEConnectionStateChange 2 { registry := none, doneClosed := false }
        ICEConnectionState.failed).doneClosed = true :=
  (terminal_state_closes_done_only 2 { registry := none, doneClosed := false }
      ICEConnectionState.failed).1 (Or.inr (Or.inl rfl))
